import Mathlib

/-!
Verification of the resilient remote-invocation client patterns documented in
the Nuxt-Tauri documentation repository: circuit breaker, retry controller
with exponential backoff, TTL cache, and batch coalescer.  Each definition is
a shallow embedding of the corresponding TypeScript example code.
-/

namespace NuxtTauri

/-! ## Circuit breaker (`useCircuitBreaker`)

The TypeScript state is
`{ state: "CLOSED" | "OPEN" | "HALF_OPEN"; failureCount; lastFailureTime; nextAttemptTime }`,
starting as `{ state: "CLOSED", failureCount: 0, lastFailureTime: 0, nextAttemptTime: 0 }`.
Timestamps (`Date.now()`) are modelled as natural numbers passed in explicitly.
-/

inductive Phase where
  | CLOSED
  | OPEN
  | HALF_OPEN
deriving DecidableEq, Repr

structure CircuitBreakerState where
  state : Phase
  failureCount : Nat
  lastFailureTime : Nat
  nextAttemptTime : Nat
deriving DecidableEq, Repr

/-- The state installed by `ref<CircuitBreakerState>({ state: "CLOSED", ... })`
at construction, and re-installed wholesale on a success in a non-CLOSED phase. -/
def initialBreaker : CircuitBreakerState :=
  { state := .CLOSED, failureCount := 0, lastFailureTime := 0, nextAttemptTime := 0 }

/-- `canExecute` computed property.  It returns a boolean and, because the OPEN
branch mutates `circuitState.value.state` to `"HALF_OPEN"` before returning
`true`, also the possibly updated state. -/
def canExecute (s : CircuitBreakerState) (now : Nat) : Bool × CircuitBreakerState :=
  match s.state with
  | .CLOSED => (true, s)
  | .OPEN =>
      if s.nextAttemptTime ≤ now then (true, { s with state := .HALF_OPEN })
      else (false, s)
  | .HALF_OPEN => (true, s)

inductive ExecOutcome where
  | circuitOpen
  | success
  | failure
deriving DecidableEq, Repr

/-- The `execute` wrapper.  `opFails` is the outcome the wrapped `rawExecute()`
would have (`true` = it throws).  The result is the observable outcome, the new
breaker state, and the number of times the wrapped operation was invoked
(`rawExecute()` appears only past the `canExecute` guard in the source). -/
def execute (failureThreshold resetTimeout : Nat) (s : CircuitBreakerState)
    (now : Nat) (opFails : Bool) : ExecOutcome × CircuitBreakerState × Nat :=
  let (can, s1) := canExecute s now
  if can = false then
    (.circuitOpen, s1, 0)
  else if opFails = false then
    (.success, if s1.state = .CLOSED then s1 else initialBreaker, 1)
  else
    let s2 := { s1 with failureCount := s1.failureCount + 1, lastFailureTime := now }
    let s3 := if failureThreshold ≤ s2.failureCount then
                { s2 with state := .OPEN, nextAttemptTime := now + resetTimeout }
              else s2
    (.failure, s3, 1)

/-- States reachable from construction by any interleaving of `canExecute`
queries and `execute` calls. -/
inductive Reachable (ft rt : Nat) : CircuitBreakerState → Prop where
  | init : Reachable ft rt initialBreaker
  | query (s : CircuitBreakerState) (now : Nat) :
      Reachable ft rt s → Reachable ft rt (canExecute s now).2
  | exec (s : CircuitBreakerState) (now : Nat) (opFails : Bool) :
      Reachable ft rt s → Reachable ft rt (execute ft rt s now opFails).2.1

/-- In any reachable state whose phase is not CLOSED, the failure count has
already reached the threshold (failures are only reset together with the phase). -/
theorem reachable_notClosed_count {ft rt : Nat} {s : CircuitBreakerState}
    (h : Reachable ft rt s) : s.state ≠ .CLOSED → ft ≤ s.failureCount := by
  induction h with
  | init => intro hc; exact absurd rfl hc
  | query s now _ ih =>
      obtain ⟨st, fc, lf, na⟩ := s
      intro hc
      cases st with
      | CLOSED => simp [canExecute] at hc
      | OPEN =>
          have hfc : ft ≤ fc := ih (by simp)
          by_cases hle : na ≤ now
          · simpa [canExecute, hle] using hfc
          · simpa [canExecute, hle] using hfc
      | HALF_OPEN => exact ih hc
  | exec s now opFails _ ih =>
      obtain ⟨st, fc, lf, na⟩ := s
      intro hc
      cases st with
      | CLOSED =>
          cases opFails with
          | false => simp [execute, canExecute] at hc
          | true =>
              by_cases hth : ft ≤ fc + 1
              · simp [execute, canExecute, hth]
              · simp [execute, canExecute, hth] at hc
      | OPEN =>
          have hfc : ft ≤ fc := ih (by simp)
          by_cases hle : na ≤ now
          · cases opFails with
            | false => simp [execute, canExecute, hle, initialBreaker] at hc
            | true =>
                by_cases hth : ft ≤ fc + 1
                · simp [execute, canExecute, hle, hth]
                · exact absurd (Nat.le_succ_of_le hfc) hth
          · simpa [execute, canExecute, hle] using hfc
      | HALF_OPEN =>
          have hfc : ft ≤ fc := ih (by simp)
          cases opFails with
          | false => simp [execute, canExecute, initialBreaker] at hc
          | true =>
              by_cases hth : ft ≤ fc + 1
              · simp [execute, canExecute, hth]
              · exact absurd (Nat.le_succ_of_le hfc) hth

/-- C1: the circuit breaker follows exactly the documented state machine:
it starts CLOSED with failureCount 0; every wrapped-operation failure
increments failureCount; reaching the failure threshold turns the phase OPEN
with nextAttemptTime = now + resetTimeout; a `canExecute` query while OPEN at
or past nextAttemptTime transitions to HALF_OPEN and returns true; a
successful call in a non-CLOSED phase transitions to CLOSED with failureCount
reset to 0; a failing call while HALF_OPEN (in any reachable state)
transitions back to OPEN with nextAttemptTime recomputed; and a failure that
leaves the count below the threshold keeps the phase CLOSED. -/
theorem breaker_state_machine (ft rt : Nat) :
    (initialBreaker.state = .CLOSED ∧ initialBreaker.failureCount = 0) ∧
    (∀ s now, (execute ft rt s now true).1 = .failure →
      (execute ft rt s now true).2.1.failureCount = s.failureCount + 1) ∧
    (∀ s now, (execute ft rt s now true).1 = .failure → ft ≤ s.failureCount + 1 →
      (execute ft rt s now true).2.1.state = .OPEN ∧
      (execute ft rt s now true).2.1.nextAttemptTime = now + rt) ∧
    (∀ s now, s.state = .OPEN → s.nextAttemptTime ≤ now →
      (canExecute s now).1 = true ∧ (canExecute s now).2.state = .HALF_OPEN) ∧
    (∀ s now, s.state ≠ .CLOSED → (execute ft rt s now false).1 = .success →
      (execute ft rt s now false).2.1 = initialBreaker) ∧
    (∀ s now, Reachable ft rt s → s.state = .HALF_OPEN →
      (execute ft rt s now true).2.1.state = .OPEN ∧
      (execute ft rt s now true).2.1.nextAttemptTime = now + rt) ∧
    (∀ s now, s.state = .CLOSED → s.failureCount + 1 < ft →
      (execute ft rt s now true).2.1.state = .CLOSED) := by
  refine ⟨⟨rfl, rfl⟩, ?_, ?_, ?_, ?_, ?_, ?_⟩
  · intro s now hf
    obtain ⟨st, fc, lf, na⟩ := s
    cases st with
    | CLOSED => by_cases hth : ft ≤ fc + 1 <;> simp [execute, canExecute, hth]
    | OPEN =>
        by_cases hle : na ≤ now
        · by_cases hth : ft ≤ fc + 1 <;> simp [execute, canExecute, hle, hth]
        · simp [execute, canExecute, hle] at hf
    | HALF_OPEN => by_cases hth : ft ≤ fc + 1 <;> simp [execute, canExecute, hth]
  · intro s now hf hth
    obtain ⟨st, fc, lf, na⟩ := s
    cases st with
    | CLOSED => simp [execute, canExecute, hth]
    | OPEN =>
        by_cases hle : na ≤ now
        · simp [execute, canExecute, hle, hth]
        · simp [execute, canExecute, hle] at hf
    | HALF_OPEN => simp [execute, canExecute, hth]
  · intro s now hO hle
    obtain ⟨st, fc, lf, na⟩ := s
    cases hO
    simp [canExecute, hle]
  · intro s now hnc hs
    obtain ⟨st, fc, lf, na⟩ := s
    cases st with
    | CLOSED => exact absurd rfl hnc
    | OPEN =>
        by_cases hle : na ≤ now
        · simp [execute, canExecute, hle]
        · simp [execute, canExecute, hle] at hs
    | HALF_OPEN => simp [execute, canExecute]
  · intro s now hr hH
    have hfc : ft ≤ s.failureCount := reachable_notClosed_count hr (by rw [hH]; decide)
    obtain ⟨st, fc, lf, na⟩ := s
    cases hH
    have hth : ft ≤ fc + 1 := Nat.le_succ_of_le hfc
    simp [execute, canExecute, hth]
  · intro s now hC hlt
    obtain ⟨st, fc, lf, na⟩ := s
    cases hC
    have hth : ¬ ft ≤ fc + 1 := by
      have hlt2 : fc + 1 < ft := hlt
      omega
    simp [execute, canExecute, hth]

/-- Witness for C1 at concrete inputs (threshold 3, reset 60000 ms; the
HALF_OPEN conjunct is exercised on a concretely reachable HALF_OPEN state
with threshold 1 and reset 10 ms). -/
theorem breaker_state_machine_witness :
    ((execute 3 60000 initialBreaker 5 true).2.1.failureCount
        = initialBreaker.failureCount + 1) ∧
    ((execute 3 60000 ⟨.CLOSED, 2, 0, 0⟩ 7 true).2.1.state = .OPEN ∧
     (execute 3 60000 ⟨.CLOSED, 2, 0, 0⟩ 7 true).2.1.nextAttemptTime = 7 + 60000) ∧
    ((canExecute ⟨.OPEN, 3, 0, 100⟩ 100).1 = true ∧
     (canExecute ⟨.OPEN, 3, 0, 100⟩ 100).2.state = .HALF_OPEN) ∧
    ((execute 3 60000 ⟨.HALF_OPEN, 3, 0, 100⟩ 200 false).2.1 = initialBreaker) ∧
    ((execute 1 10 (canExecute (execute 1 10 initialBreaker 0 true).2.1 10).2 10
        true).2.1.state = .OPEN) ∧
    ((execute 3 60000 ⟨.CLOSED, 0, 0, 0⟩ 5 true).2.1.state = .CLOSED) := by
  refine ⟨?_, ?_, ?_, ?_, ?_, ?_⟩
  · exact (breaker_state_machine 3 60000).2.1 initialBreaker 5 (by decide)
  · exact (breaker_state_machine 3 60000).2.2.1 ⟨.CLOSED, 2, 0, 0⟩ 7 (by decide) (by decide)
  · exact (breaker_state_machine 3 60000).2.2.2.1 ⟨.OPEN, 3, 0, 100⟩ 100 rfl (by decide)
  · exact (breaker_state_machine 3 60000).2.2.2.2.1 ⟨.HALF_OPEN, 3, 0, 100⟩ 200
      (by decide) (by decide)
  · exact ((breaker_state_machine 1 10).2.2.2.2.2.1 _ 10
      (Reachable.query _ 10 (Reachable.exec _ 0 true Reachable.init)) (by decide)).1
  · exact (breaker_state_machine 3 60000).2.2.2.2.2.2 ⟨.CLOSED, 0, 0, 0⟩ 5 rfl (by decide)

/-- C2: whenever `canExecute` is false — the phase is OPEN and now is before
nextAttemptTime — `execute` returns the CircuitOpen outcome immediately,
performs zero invocations of the wrapped operation, and leaves the breaker
state (failureCount, lastFailureTime, nextAttemptTime, phase) unchanged. -/
theorem breaker_open_short_circuit (ft rt : Nat) (s : CircuitBreakerState)
    (now : Nat) (opFails : Bool) (hO : s.state = .OPEN)
    (hlt : now < s.nextAttemptTime) :
    execute ft rt s now opFails = (.circuitOpen, s, 0) := by
  obtain ⟨st, fc, lf, na⟩ := s
  cases hO
  simp [execute, canExecute, Nat.not_le_of_lt hlt]

/-- Witness for C2: an OPEN breaker at time 50 with nextAttemptTime 100
rejects without invoking the operation and without touching its state. -/
theorem breaker_open_short_circuit_witness :
    execute 5 60000 ⟨.OPEN, 5, 0, 100⟩ 50 true
      = (.circuitOpen, ⟨.OPEN, 5, 0, 100⟩, 0) :=
  breaker_open_short_circuit 5 60000 ⟨.OPEN, 5, 0, 100⟩ 50 true rfl (by decide)

/-- C10: a successful `execute` while the phase is CLOSED leaves every field
of the breaker state unchanged (the reset branch runs only when the phase is
not CLOSED), so failures separated by interleaved successes still accumulate:
with threshold 3, the trace fail, success, fail, success, fail from the
initial state ends with the phase OPEN. -/
theorem breaker_closed_success_frame (ft rt : Nat) (s : CircuitBreakerState)
    (now : Nat) (hC : s.state = .CLOSED) :
    execute ft rt s now false = (.success, s, 1) ∧
    (execute 3 60000 (execute 3 60000 (execute 3 60000 (execute 3 60000
      (execute 3 60000 initialBreaker 0 true).2.1 1 false).2.1 2 true).2.1
        3 false).2.1 4 true).2.1.state = .OPEN := by
  constructor
  · obtain ⟨st, fc, lf, na⟩ := s
    cases hC
    simp [execute, canExecute]
  · decide

/-- Witness for C10: a CLOSED breaker with two accumulated failures is left
exactly as it was by a successful call. -/
theorem breaker_closed_success_frame_witness :
    execute 3 60000 ⟨.CLOSED, 2, 7, 9⟩ 11 false
      = (.success, ⟨.CLOSED, 2, 7, 9⟩, 1) :=
  (breaker_closed_success_frame 3 60000 ⟨.CLOSED, 2, 7, 9⟩ 11 rfl).1

/-! ## Retry controller (`useRetrySync` example: `calculateDelay`, `startRetry`,
`cancelRetry`, the `watch(error)` retry trigger and the `watch(data)` reset)

`Math.random() * 1000` jitter is modelled as an explicit rational parameter in
`[0, 1000)`; timestamps and delays are rationals (JS numbers on this range
behave like exact arithmetic for the spec-relevant facts). -/

/-- `msg.includes(sub)` on JavaScript strings: `sub` occurs contiguously in `msg`. -/
def strContains (s sub : String) : Bool := decide (sub.data <:+: s.data)

/-- The retryability classification in the `watch(error)` callback:
`!message.includes('permission') && !message.includes('unauthorized')`. -/
def isRetryable (msg : String) : Bool :=
  !(strContains msg "permission") && !(strContains msg "unauthorized")

/-- `calculateDelay`: `Math.min(baseDelay * Math.pow(2, attempt) + jitter, 30000)`,
with the `Math.random() * 1000` jitter passed in explicitly. -/
def calculateDelay (baseDelay : ℚ) (attempt : Nat) (jitter : ℚ) : ℚ :=
  min (baseDelay * 2 ^ attempt + jitter) 30000

/-- The spec's delay formula, stated from its words for comparison with the
source's `calculateDelay`: `delay = min(baseDelayMs * 2^i + jitter, capMs)`. -/
def specBackoffDelay (baseDelayMs capMs : ℚ) (i : Nat) (j : ℚ) : ℚ :=
  min (baseDelayMs * 2 ^ i + j) capMs

/-- Aggregate observation of one retry session. -/
structure RetryRun where
  executions : Nat
  retriesScheduled : Nat
  maxAttempt : Nat
  succeeded : Bool
deriving DecidableEq, Repr

/-- One retry session of the sync example, from an `execute()` call at
execution index `execIdx` with the counter `currentAttempt = attempt`.
`outcome k = none` means the k-th execution succeeds (the `watch(data)`
callback then resets the counter to 0); `outcome k = some msg` means it fails
with message `msg`.  On a failure the `watch(error)` callback fires with
`isRetrying` false, so it calls `startRetry` exactly when the message is
retryable and `currentAttempt < maxRetries`; `startRetry` increments the
counter, schedules one retry, and the timer callback re-enters `execute`.
The run records the number of executions, the number of retries scheduled,
the largest value the attempt counter ever held, and whether it settled
successfully. -/
def retryAux (maxRetries : Nat) (outcome : Nat → Option String)
    (execIdx attempt : Nat) : RetryRun :=
  match outcome execIdx with
  | none => ⟨1, 0, attempt, true⟩
  | some msg =>
      if h : isRetryable msg = true ∧ attempt < maxRetries then
        let rest := retryAux maxRetries outcome (execIdx + 1) (attempt + 1)
        ⟨rest.executions + 1, rest.retriesScheduled + 1, rest.maxAttempt,
          rest.succeeded⟩
      else ⟨1, 0, attempt, false⟩
termination_by maxRetries - attempt
decreasing_by obtain ⟨-, h2⟩ := h; omega

/-- `startSync`: resets the counter to 0 and starts executing. -/
def startSync (maxRetries : Nat) (outcome : Nat → Option String) : RetryRun :=
  retryAux maxRetries outcome 0 0

theorem retryAux_allFail (maxRetries : Nat) (outcome : Nat → Option String)
    (H : ∀ k, ∃ msg, outcome k = some msg ∧ isRetryable msg = true) :
    ∀ n execIdx attempt, maxRetries - attempt = n → attempt ≤ maxRetries →
      retryAux maxRetries outcome execIdx attempt =
        ⟨maxRetries - attempt + 1, maxRetries - attempt, maxRetries, false⟩ := by
  intro n
  induction n with
  | zero =>
      intro execIdx attempt hn hle
      obtain ⟨msg, hmsg, _⟩ := H execIdx
      have hatt : attempt = maxRetries := by omega
      rw [retryAux, hmsg]
      have hguard : ¬ (isRetryable msg = true ∧ attempt < maxRetries) := by
        rintro ⟨-, hlt⟩; omega
      dsimp only
      rw [dif_neg hguard, hn, hatt]
  | succ n ih =>
      intro execIdx attempt hn hle
      obtain ⟨msg, hmsg, hret⟩ := H execIdx
      rw [retryAux, hmsg]
      have hlt : attempt < maxRetries := by omega
      dsimp only
      rw [dif_pos ⟨hret, hlt⟩, ih (execIdx + 1) (attempt + 1) (by omega) (by omega)]
      have h1 : maxRetries - (attempt + 1) + 1 + 1 = maxRetries - attempt + 1 := by omega
      have h2 : maxRetries - (attempt + 1) + 1 = maxRetries - attempt := by omega
      simp only [h1, h2]

theorem retryAux_maxAttempt_le (maxRetries : Nat) (outcome : Nat → Option String) :
    ∀ n execIdx attempt, maxRetries - attempt = n → attempt ≤ maxRetries →
      (retryAux maxRetries outcome execIdx attempt).maxAttempt ≤ maxRetries := by
  intro n
  induction n with
  | zero =>
      intro execIdx attempt hn hle
      rw [retryAux]
      cases houtcome : outcome execIdx with
      | none => exact hle
      | some msg =>
          have hguard : ¬ (isRetryable msg = true ∧ attempt < maxRetries) := by
            rintro ⟨-, hlt⟩; omega
          dsimp only
          rw [dif_neg hguard]
          exact hle
  | succ n ih =>
      intro execIdx attempt hn hle
      rw [retryAux]
      cases houtcome : outcome execIdx with
      | none => exact hle
      | some msg =>
          by_cases hguard : isRetryable msg = true ∧ attempt < maxRetries
          · dsimp only
            rw [dif_pos hguard]
            exact ih (execIdx + 1) (attempt + 1) (by omega) (by omega)
          · dsimp only
            rw [dif_neg hguard]
            exact hle

/-- C3: with `maxRetries = 3`, a session whose every execution fails with a
retryable message is executed exactly 4 times (1 initial + 3 retries),
schedules exactly 3 retries, and settles failed; moreover, for any
configuration and any outcomes, the attempt counter never exceeds
`maxRetries`. -/
theorem retry_exhaustion (outcome : Nat → Option String)
    (H : ∀ k, ∃ msg, outcome k = some msg ∧ isRetryable msg = true) :
    startSync 3 outcome = ⟨4, 3, 3, false⟩ ∧
    ∀ (m : Nat) (o : Nat → Option String), (startSync m o).maxAttempt ≤ m := by
  constructor
  · exact retryAux_allFail 3 outcome H 3 0 0 rfl (by omega)
  · intro m o
    exact retryAux_maxAttempt_le m o m 0 0 rfl (by omega)

/-- Witness for C3: an operation failing every time with a retryable message. -/
theorem retry_exhaustion_witness :
    startSync 3 (fun _ => some "boom") = ⟨4, 3, 3, false⟩ :=
  (retry_exhaustion (fun _ => some "boom")
    (fun _ => ⟨"boom", rfl, by decide⟩)).1

/-- C4: the computed backoff delay is exactly the spec formula
`min(baseDelayMs * 2^i + jitter, capMs)` with `capMs = 30000`, and with
`baseDelayMs = 1000` the delays are non-decreasing in the attempt index for
any jitter values drawn from `[0, 1000)`. -/
theorem backoff_delay_formula (b : ℚ) (i : Nat) (j j2 : ℚ)
    (_hj0 : 0 ≤ j) (hj : j < 1000) (hj20 : 0 ≤ j2) (_hj2 : j2 < 1000) :
    calculateDelay b i j = specBackoffDelay b 30000 i j ∧
    calculateDelay 1000 i j ≤ calculateDelay 1000 (i + 1) j2 := by
  refine ⟨rfl, ?_⟩
  unfold calculateDelay
  have h1 : (1 : ℚ) ≤ 2 ^ i := one_le_pow₀ (by norm_num)
  have h2 : (1000 : ℚ) * 2 ^ (i + 1) = 1000 * 2 ^ i + 1000 * 2 ^ i := by ring
  apply min_le_min _ le_rfl
  rw [h2]
  linarith [h1]

/-- Witness for C4 at `i = 0`, jitters 0 and 999. -/
theorem backoff_delay_formula_witness :
    calculateDelay 1000 0 0 = specBackoffDelay 1000 30000 0 0 ∧
    calculateDelay 1000 0 0 ≤ calculateDelay 1000 1 999 :=
  backoff_delay_formula 1000 0 0 999 (by norm_num) (by norm_num) (by norm_num)
    (by norm_num)

/-- C5: a failure whose message contains "permission" or "unauthorized" is
non-retryable — the session performs only the current execution, schedules
zero retries, and settles failed regardless of how many attempts remain —
while any other failure with attempts remaining schedules a retry
(the session continues with the incremented counter, so its execution count
is one more than the continuation's). -/
theorem retry_nonretryable_classification :
    (∀ (m : Nat) (outcome : Nat → Option String) (execIdx attempt : Nat)
        (msg : String), outcome execIdx = some msg →
      (strContains msg "permission" = true ∨ strContains msg "unauthorized" = true) →
      retryAux m outcome execIdx attempt = ⟨1, 0, attempt, false⟩) ∧
    (∀ (m : Nat) (outcome : Nat → Option String) (execIdx attempt : Nat)
        (msg : String), outcome execIdx = some msg →
      isRetryable msg = true → attempt < m →
      1 ≤ (retryAux m outcome execIdx attempt).retriesScheduled ∧
      (retryAux m outcome execIdx attempt).executions
        = (retryAux m outcome (execIdx + 1) (attempt + 1)).executions + 1) := by
  constructor
  · intro m outcome execIdx attempt msg hmsg hperm
    have hret : isRetryable msg = false := by
      unfold isRetryable
      rcases hperm with hp | hu
      · simp [hp]
      · simp [hu]
    rw [retryAux, hmsg]
    have hguard : ¬ (isRetryable msg = true ∧ attempt < m) := by
      rintro ⟨h1, -⟩; rw [hret] at h1; exact Bool.false_ne_true h1
    dsimp only
    rw [dif_neg hguard]
  · intro m outcome execIdx attempt msg hmsg hret hlt
    rw [retryAux, hmsg]
    dsimp only
    rw [dif_pos ⟨hret, hlt⟩]
    exact ⟨Nat.le_add_left 1 _, rfl⟩

/-- Witness for C5: a "permission denied" failure settles immediately with no
retry even with the full budget remaining; a "boom" failure with budget left
schedules a retry. -/
theorem retry_nonretryable_classification_witness :
    retryAux 3 (fun _ => some "permission denied") 0 0 = ⟨1, 0, 0, false⟩ ∧
    1 ≤ (retryAux 3 (fun _ => some "boom") 0 0).retriesScheduled :=
  ⟨retry_nonretryable_classification.1 3 (fun _ => some "permission denied") 0 0
      "permission denied" rfl (Or.inl (by decide)),
   (retry_nonretryable_classification.2 3 (fun _ => some "boom") 0 0 "boom" rfl
      (by decide) (by omega)).1⟩

/-! ## TTL cache (`useCachedInvoke`)

`const cache = new Map<string, CacheEntry<any>>()` with
`cacheKey = command + ":" + JSON.stringify(args)`.  The argument record is
modelled as the ordered list of its entries, each value already serialized;
`JSON.stringify` emits the properties in that (insertion) order.  Timestamps
are integers (`Date.now()`). -/

structure CacheEntry (T : Type) where
  data : T
  timestamp : Int
  ttl : Int
deriving DecidableEq, Repr

def CacheMap (T : Type) := String → Option (CacheEntry T)

/-- `JSON.stringify(args)` on a record whose entries, in insertion order, are
`args` (values pre-serialized): `\x7b"k1":v1,"k2":v2,...\x7d`. -/
def jsonStringify (args : List (String × String)) : String :=
  "\x7b" ++ String.intercalate ","
    (args.map fun kv => "\"" ++ kv.1 ++ "\":" ++ kv.2) ++ "\x7d"

/-- The cache key: `` `${command}:${JSON.stringify(args)}` ``. -/
def cacheKey (command : String) (args : List (String × String)) : String :=
  command ++ ":" ++ jsonStringify args

/-- `getCachedData`: returns `entry.data` when an entry exists and
`Date.now() - entry.timestamp < entry.ttl`, else `null`. -/
def getCachedData {T : Type} (cache : CacheMap T) (now : Int) (key : String) :
    Option T :=
  match cache key with
  | some entry => if now - entry.timestamp < entry.ttl then some entry.data else none
  | none => none

/-- `setCachedData`: `cache.set(cacheKey, { data, timestamp: Date.now(), ttl })`. -/
def setCachedData {T : Type} (cache : CacheMap T) (key : String) (v : T)
    (now ttl : Int) : CacheMap T :=
  fun k => if k = key then some ⟨v, now, ttl⟩ else cache k

/-- The read operation together with its effect on the cache map: the source's
`getCachedData` only calls `cache.get(cacheKey)` and never `cache.delete`, so
the map after a read is the map before. -/
def getCachedDataS {T : Type} (cache : CacheMap T) (now : Int) (key : String) :
    Option T × CacheMap T :=
  (getCachedData cache now key, cache)

/-- The explicit invalidation performed by `refresh()`: `cache.delete(cacheKey)`. -/
def cacheInvalidate {T : Type} (cache : CacheMap T) (key : String) : CacheMap T :=
  fun k => if k = key then none else cache k

/-- JavaScript truthiness of a number-valued cache entry: `!cachedData` is
true exactly for `0`, so `0` is the falsy value of this domain. -/
def jsTruthyNat (n : Nat) : Bool := n != 0

/-- The immediate-fetch path of `useCachedInvoke` with `immediate: true`:
`getCachedData()` is consulted first and the fetch is suppressed via
`immediate: options.immediate && !cachedData` — a JavaScript *truthiness*
test on the cached value, modelled by the `truthy` parameter.  The producer
is skipped only when the read hits and the cached value is truthy; a falsy
cached value (`0`, `""`, `false`) passes the `!cachedData` guard, so the
fetch runs anyway and the `watch(fetchedData)` callback stores its result via
`setCachedData`.  Returns the value served (`fetchedData ?? initialData`),
the cache afterwards, and how many times the producer ran. -/
def getOrCompute {T : Type} (truthy : T → Bool) (cache : CacheMap T)
    (now : Int) (command : String) (args : List (String × String))
    (ttl : Int) (producer : T) : T × CacheMap T × Nat :=
  let key := cacheKey command args
  match getCachedData cache now key with
  | some v =>
      if truthy v then (v, cache, 0)
      else (producer, setCachedData cache key producer now ttl, 1)
  | none => (producer, setCachedData cache key producer now ttl, 1)

/-- C6 counterexample: with JS-number values, the value `0` stored at t = 0
with ttl 5000 is a within-ttl hit at t = 4000 — the read returns it — yet
the fetch-suppression gate `options.immediate && !cachedData` tests
truthiness, `!0` is true, and the producer is invoked despite the fresh hit. -/
theorem cache_hit_falsy_invokes_producer_cex :
    getCachedData
        (setCachedData (fun _ => none) (cacheKey "get_count" [("x", "1")])
          (0 : Nat) 0 5000)
        4000 (cacheKey "get_count" [("x", "1")]) = some 0 ∧
    (getOrCompute jsTruthyNat
        (setCachedData (fun _ => none) (cacheKey "get_count" [("x", "1")])
          (0 : Nat) 0 5000)
        4000 "get_count" [("x", "1")] 5000 9).2.2 = 1 := by
  exact ⟨by decide, by decide⟩

/-- C6 (amended): after `set(k, v, d)` at time `t`, a read of `k` at `tq`
with `tq - t < d` returns `v` and one with `tq - t ≥ d` returns absent; a
read never returns an entry whose age has reached its ttl; `getOrCompute` on
a within-ttl hit whose cached value is truthy serves it without invoking the
producer, while a hit on a falsy cached value fails the `!cachedData`
suppression guard and invokes the producer once. -/
theorem cache_ttl_roundtrip {T : Type} (cache : CacheMap T) (k : String) (v : T)
    (t d tq : Int) :
    (tq - t < d → getCachedData (setCachedData cache k v t d) tq k = some v) ∧
    (d ≤ tq - t → getCachedData (setCachedData cache k v t d) tq k = none) ∧
    (∀ e : CacheEntry T, cache k = some e → e.ttl ≤ tq - e.timestamp →
      getCachedData cache tq k = none) ∧
    (∀ (truthy : T → Bool) (cmd : String) (args : List (String × String))
        (ttl : Int) (p w : T),
      getCachedData cache tq (cacheKey cmd args) = some w → truthy w = true →
      (getOrCompute truthy cache tq cmd args ttl p).2.2 = 0 ∧
      (getOrCompute truthy cache tq cmd args ttl p).1 = w) ∧
    (∀ (truthy : T → Bool) (cmd : String) (args : List (String × String))
        (ttl : Int) (p w : T),
      getCachedData cache tq (cacheKey cmd args) = some w → truthy w = false →
      (getOrCompute truthy cache tq cmd args ttl p).2.2 = 1) := by
  refine ⟨?_, ?_, ?_, ?_, ?_⟩
  · intro hfresh
    simp [getCachedData, setCachedData, hfresh]
  · intro hstale
    simp [getCachedData, setCachedData, not_lt_of_le hstale]
  · intro e he hexp
    simp [getCachedData, he, not_lt_of_le hexp]
  · intro truthy cmd args ttl p w hhit htr
    simp [getOrCompute, hhit, htr]
  · intro truthy cmd args ttl p w hhit htr
    simp [getOrCompute, hhit, htr]

/-- Witness for C6 (amended): ttl 5000 stored at t = 0; a truthy hit at
t = 4000 serves the value with zero producer runs, the entry is absent at
t = 6000, and a falsy (`0`) hit at t = 4000 runs the producer once. -/
theorem cache_ttl_roundtrip_witness :
    getCachedData (setCachedData (fun _ => none) "k" (7 : Nat) 0 5000) 4000 "k"
      = some 7 ∧
    getCachedData (setCachedData (fun _ => none) "k" (7 : Nat) 0 5000) 6000 "k"
      = none ∧
    (getOrCompute jsTruthyNat
        (setCachedData (fun _ => none) (cacheKey "get_user" [("id", "1")])
          (7 : Nat) 0 5000)
        4000 "get_user" [("id", "1")] 5000 9).2.2 = 0 ∧
    (getOrCompute jsTruthyNat
        (setCachedData (fun _ => none) (cacheKey "get_flag" [("x", "2")])
          (0 : Nat) 0 5000)
        4000 "get_flag" [("x", "2")] 5000 9).2.2 = 1 := by
  refine ⟨?_, ?_, ?_, ?_⟩
  · exact (cache_ttl_roundtrip (fun _ => none) "k" 7 0 5000 4000).1 (by decide)
  · exact (cache_ttl_roundtrip (fun _ => none) "k" 7 0 5000 6000).2.1 (by decide)
  · exact ((cache_ttl_roundtrip
      (setCachedData (fun _ => none) (cacheKey "get_user" [("id", "1")]) (7 : Nat) 0 5000)
      (cacheKey "get_user" [("id", "1")]) 7 0 5000 4000).2.2.2.1
      jsTruthyNat "get_user" [("id", "1")] 5000 9 7 (by decide) (by decide)).1
  · exact (cache_ttl_roundtrip
      (setCachedData (fun _ => none) (cacheKey "get_flag" [("x", "2")]) (0 : Nat) 0 5000)
      (cacheKey "get_flag" [("x", "2")]) 0 0 5000 4000).2.2.2.2
      jsTruthyNat "get_flag" [("x", "2")] 5000 9 0 (by decide) (by decide)

/-- C7 counterexample: the two argument lists bind the same keys to the same
values — they are permutations of one another, and agree under lookup at
every bound key — yet, because `JSON.stringify` serializes properties in
insertion order, the derived cache keys differ. -/
theorem cacheKey_order_dependent_cex :
    ([("a", "1"), ("b", "2")] : List (String × String)).Perm
      [("b", "2"), ("a", "1")] ∧
    ([("a", "1"), ("b", "2")] : List (String × String)).lookup "a"
      = ([("b", "2"), ("a", "1")] : List (String × String)).lookup "a" ∧
    ([("a", "1"), ("b", "2")] : List (String × String)).lookup "b"
      = ([("b", "2"), ("a", "1")] : List (String × String)).lookup "b" ∧
    cacheKey "get_user" [("a", "1"), ("b", "2")]
      ≠ cacheKey "get_user" [("b", "2"), ("a", "1")] := by
  refine ⟨?_, ?_, ?_, ?_⟩
  · decide
  · decide
  · decide
  · decide

/-- C7 (amended): key derivation is stable exactly under serialization
equality — for a fixed operation name, two argument lists derive the same
cache key precisely when their insertion-order JSON serializations coincide;
in particular identical ordered argument lists always share a cache entry,
but mappings equal only up to key order need not. -/
theorem cacheKey_serialization_stability (cmd : String)
    (a1 a2 : List (String × String)) :
    cacheKey cmd a1 = cacheKey cmd a2 ↔ jsonStringify a1 = jsonStringify a2 := by
  unfold cacheKey
  constructor
  · intro h
    have hd : (cmd ++ ":" ++ jsonStringify a1).data
        = (cmd ++ ":" ++ jsonStringify a2).data := by rw [h]
    simp only [String.data_append] at hd
    exact String.ext (List.append_cancel_left hd)
  · intro h
    rw [h]

/-- Witness for C7 (amended): identical ordered argument lists share a key. -/
theorem cacheKey_serialization_stability_witness :
    cacheKey "get_user" [("id", "1")] = cacheKey "get_user" [("id", "1")] :=
  (cacheKey_serialization_stability "get_user" [("id", "1")] [("id", "1")]).mpr rfl

/-- C9 counterexample: an entry stored at time 0 with ttl 5 and read at time
10 (age ≥ ttl) yields an absent result, but the mapping after the read still
contains the expired entry — the source's `getCachedData` performs no
deletion, so there is no check-on-read eviction. -/
theorem cache_read_no_eviction_cex :
    (getCachedDataS (setCachedData (fun _ => none) "k" (42 : Nat) 0 5) 10 "k").1
      = none ∧
    (getCachedDataS (setCachedData (fun _ => none) "k" (42 : Nat) 0 5) 10 "k").2 "k"
      = some ⟨42, 0, 5⟩ := by
  exact ⟨rfl, rfl⟩

/-- C9 (amended): a read of a key whose entry has age ≥ ttl returns absent and
leaves the mapping entirely unchanged — the expired entry stays in the map;
entries are removed only by the explicit invalidation `refresh()` performs
(`cache.delete`), there being no background sweeper. -/
theorem cache_read_frame {T : Type} (cache : CacheMap T) (now : Int)
    (k : String) (e : CacheEntry T) (he : cache k = some e)
    (hexp : e.ttl ≤ now - e.timestamp) :
    (getCachedDataS cache now k).1 = none ∧
    (getCachedDataS cache now k).2 = cache ∧
    cacheInvalidate cache k k = none := by
  refine ⟨?_, rfl, ?_⟩
  · simp [getCachedDataS, getCachedData, he, not_lt_of_le hexp]
  · simp [cacheInvalidate]

/-- Witness for C9 (amended) on the counterexample's cache. -/
theorem cache_read_frame_witness :
    (getCachedDataS (setCachedData (fun _ => none) "k" (42 : Nat) 0 5) 10 "k").1
      = none ∧
    (getCachedDataS (setCachedData (fun _ => none) "k" (42 : Nat) 0 5) 10 "k").2
      = setCachedData (fun _ => none) "k" (42 : Nat) 0 5 ∧
    cacheInvalidate (setCachedData (fun _ => none) "k" (42 : Nat) 0 5) "k" "k"
      = none :=
  cache_read_frame (setCachedData (fun _ => none) "k" (42 : Nat) 0 5) 10 "k"
    ⟨42, 0, 5⟩ (by decide) (by decide)

/-! ## Batch coalescer (`useBatchOperations`)

`addOperation` pushes `{ command, args, resolve, reject }` onto
`pendingOperations` and calls the debounced `processBatch`.  The flush body is
modelled as a function of the `isProcessing` flag, the accumulated list, and
the grouped transport (`executeBatch`); it returns the grouped calls issued,
the pending list afterwards, and the per-handle settlements in list order
(`.ok r` for `resolve(r)`, `.error e` for `reject(e)`).  JavaScript's
`results[index]` is `results[index]?` (an out-of-range index resolves the
handle with `undefined`). -/

structure BatchOp where
  command : String
  args : String
deriving DecidableEq, Repr

/-- The debounced `processBatch` body: bail out if already processing or
empty; otherwise copy the accumulated operations, reset the list, issue one
grouped `executeBatch` call with the ordered `(command, args)` payload, and
either resolve the i-th handle with `results[i]` or reject every handle with
the shared error. -/
def processBatch {ε ρ : Type} (isProcessing : Bool) (pendingOperations : List BatchOp)
    (executeBatch : List (String × String) → Except ε (List ρ)) :
    List (List (String × String)) × List BatchOp × List (Except ε (Option ρ)) :=
  if isProcessing || pendingOperations.isEmpty then ([], pendingOperations, [])
  else
    let operations := pendingOperations
    let payload := operations.map fun op => (op.command, op.args)
    match executeBatch payload with
    | .ok results => ([payload], [], operations.mapIdx fun index _ => .ok results[index]?)
    | .error e => ([payload], [], operations.map fun _ => .error e)

theorem mapIdx_ok_of_length_eq {ε ρ : Type} :
    ∀ (ops : List BatchOp) (results : List ρ), results.length = ops.length →
      (ops.mapIdx fun index _ => (Except.ok results[index]? : Except ε (Option ρ)))
        = results.map fun r => .ok (some r) := by
  intro ops
  induction ops with
  | nil =>
      intro results hlen
      rw [List.length_nil, List.length_eq_zero] at hlen
      subst hlen
      rfl
  | cons hd tl ih =>
      intro results hlen
      cases results with
      | nil => simp at hlen
      | cons r rs =>
          rw [List.mapIdx_cons, List.map_cons]
          congr 1
          · simp
          · have h := ih rs (by simpa using hlen)
            simp only [List.getElem?_cons_succ]
            exact h

/-- C8: flushing with the debounce timer fired and `n ≥ 1` accumulated
operations swaps the pending list for an empty one and issues exactly one
grouped transport call carrying the n requests in submission order; on a
successful grouped response of n results the i-th result resolves the i-th
handle, and on a rejected grouped call every one of the n handles is rejected
with that same shared failure. -/
theorem batch_flush_correlation {ε ρ : Type} (ops : List BatchOp)
    (executeBatch : List (String × String) → Except ε (List ρ))
    (hne : ops ≠ []) :
    (processBatch false ops executeBatch).1.length = 1 ∧
    (processBatch false ops executeBatch).1
      = [ops.map fun op => (op.command, op.args)] ∧
    (processBatch false ops executeBatch).2.1 = [] ∧
    (∀ results, executeBatch (ops.map fun op => (op.command, op.args)) = .ok results →
      results.length = ops.length →
      (processBatch false ops executeBatch).2.2
        = results.map fun r => .ok (some r)) ∧
    (∀ e, executeBatch (ops.map fun op => (op.command, op.args)) = .error e →
      (processBatch false ops executeBatch).2.2 = ops.map fun _ => .error e) := by
  have hempty : ops.isEmpty = false := by
    cases ops with
    | nil => exact absurd rfl hne
    | cons hd tl => rfl
  refine ⟨?_, ?_, ?_, ?_, ?_⟩
  · unfold processBatch
    rw [hempty]
    dsimp only [Bool.false_or, if_neg Bool.false_ne_true]
    cases executeBatch (ops.map fun op => (op.command, op.args)) <;> rfl
  · unfold processBatch
    rw [hempty]
    dsimp only [Bool.false_or, if_neg Bool.false_ne_true]
    cases executeBatch (ops.map fun op => (op.command, op.args)) <;> rfl
  · unfold processBatch
    rw [hempty]
    dsimp only [Bool.false_or, if_neg Bool.false_ne_true]
    cases executeBatch (ops.map fun op => (op.command, op.args)) <;> rfl
  · intro results hok hlen
    unfold processBatch
    rw [hempty]
    dsimp only [Bool.false_or, if_neg Bool.false_ne_true]
    rw [hok]
    exact mapIdx_ok_of_length_eq ops results hlen
  · intro e herr
    unfold processBatch
    rw [hempty]
    dsimp only [Bool.false_or, if_neg Bool.false_ne_true]
    rw [herr]
    rfl

/-- Witness for C8: three operations; a successful grouped response resolves
the handles in order, and a rejected grouped call rejects all three with the
shared failure. -/
theorem batch_flush_correlation_witness :
    (processBatch false [⟨"a", "1"⟩, ⟨"b", "2"⟩, ⟨"c", "3"⟩]
        (fun _ => Except.ok (["ra", "rb", "rc"] : List String)
          : List (String × String) → Except String (List String))).2.2
      = [.ok (some "ra"), .ok (some "rb"), .ok (some "rc")] ∧
    (processBatch false [⟨"a", "1"⟩, ⟨"b", "2"⟩, ⟨"c", "3"⟩]
        (fun _ => Except.error "down"
          : List (String × String) → Except String (List String))).2.1 = [] ∧
    (processBatch false [⟨"a", "1"⟩, ⟨"b", "2"⟩, ⟨"c", "3"⟩]
        (fun _ => Except.error "down"
          : List (String × String) → Except String (List String))).2.2
      = [.error "down", .error "down", .error "down"] := by
  refine ⟨?_, ?_, ?_⟩
  · have h := (batch_flush_correlation [⟨"a", "1"⟩, ⟨"b", "2"⟩, ⟨"c", "3"⟩]
      ((fun _ => Except.ok ["ra", "rb", "rc"])
        : List (String × String) → Except String (List String))
      (by decide)).2.2.2.1 ["ra", "rb", "rc"] rfl rfl
    simpa using h
  · exact (batch_flush_correlation [⟨"a", "1"⟩, ⟨"b", "2"⟩, ⟨"c", "3"⟩]
      ((fun _ => Except.error "down")
        : List (String × String) → Except String (List String))
      (by decide)).2.2.1
  · have h := (batch_flush_correlation [⟨"a", "1"⟩, ⟨"b", "2"⟩, ⟨"c", "3"⟩]
      ((fun _ => Except.error "down")
        : List (String × String) → Except String (List String))
      (by decide)).2.2.2.2 "down" rfl
    simpa using h

end NuxtTauri
